/-
Verification development for `gitSim.py`, a script that generates backdated
commits over a date range and optionally pushes a branch, opens a pull
request and posts a review comment.

Modelling conventions for the shallow embedding:

* Calendar dates are represented by their proleptic-Gregorian ordinal
  (`Int`), exactly as Python's `date.toordinal()`: ordinal 1 is 0001-01-01,
  which is a Monday; `weekday` matches Python's `date.weekday()`
  (Monday = 0 .. Sunday = 6).  `civilFromOrdinal` converts an ordinal back
  to (year, month, day) with the standard civil-from-days algorithm, so the
  string renderings of timestamps are computed concretely.
* Randomness: Python's global `random` generator is modelled as an oracle
  `RandOracle : Nat → Int` together with a running index; each call of
  `random.randint(a, b)` reads one oracle value, mapped into `[a, b]` by
  `emod`, and advances the index.  `random.randint(a, b)` with `b < a`
  raises `ValueError` in Python; `randint` returns `none` in that case.
* External commands and API calls: their observable outcomes (success
  booleans, captured stdout) are inputs, collected in `World`; one boolean
  per command kind.  Each simulated function returns the list of `Effect`s
  it performs; an uncaught Python exception is the `none` / `false` /
  `ExitKind.uncaught` leg.  Interpolated exception text in log messages is
  elided (only the static part of each message is modelled).
-/
import Mathlib

/-- Zero-padding to two digits, as Python's `%02d` / `str.zfill` rendering
used by `datetime` for months, days, hours, minutes and seconds. -/
def pad2 (n : Int) : String :=
  if n < 10 then "0" ++ toString n else toString n

/-- Zero-padding to four digits, as Python's `%04d` rendering of years. -/
def pad4 (n : Int) : String :=
  if n < 10 then "000" ++ toString n
  else if n < 100 then "00" ++ toString n
  else if n < 1000 then "0" ++ toString n
  else toString n

/-- Convert a proleptic-Gregorian ordinal (Python `date.toordinal()`,
1 = 0001-01-01) to `(year, month, day)`; standard civil-from-days
algorithm shifted to the ordinal epoch. -/
def civilFromOrdinal (ord : Int) : Int × Int × Int :=
  let z := ord + 305
  let era := Int.ediv z 146097
  let doe := Int.emod z 146097
  let yoe := Int.ediv (doe - Int.ediv doe 1460 + Int.ediv doe 36524 - Int.ediv doe 146096) 365
  let y0 := yoe + era * 400
  let doy := doe - (365 * yoe + Int.ediv yoe 4 - Int.ediv yoe 100)
  let mp := Int.ediv (5 * doy + 2) 153
  let d := doy - Int.ediv (153 * mp + 2) 5 + 1
  let m := mp + (if mp < 10 then 3 else -9)
  (y0 + (if m ≤ 2 then 1 else 0), m, d)

/-- Python `date.weekday()`: Monday = 0 .. Sunday = 6.  Ordinal 1
(0001-01-01) is a Monday. -/
def weekday (ord : Int) : Int := Int.emod (ord - 1) 7

/-- A time of day, as drawn by `datetime.time(hour, minute, second)`. -/
structure Time where
  hour : Int
  minute : Int
  second : Int
  deriving DecidableEq, Repr

/-- The spec's CommitEvent: a calendar date (ordinal) plus a time of day;
this is the `commit_time` datetime built in `simulate_commits`. -/
structure CommitEvent where
  date : Int
  time : Time
  deriving DecidableEq, Repr

/-- `%Y-%m-%d` rendering of a date ordinal. -/
def dateStr (ord : Int) : String :=
  let c := civilFromOrdinal ord
  pad4 c.1 ++ "-" ++ pad2 c.2.1 ++ "-" ++ pad2 c.2.2

/-- `%H:%M:%S` rendering of a time of day. -/
def timeStr (t : Time) : String :=
  pad2 t.hour ++ ":" ++ pad2 t.minute ++ ":" ++ pad2 t.second

/-- Python `str(commit_time)` for a datetime with microsecond 0:
`isoformat(sep=' ')`, i.e. `YYYY-MM-DD HH:MM:SS`.  Used in the activity
file line `f"Update at {commit_time}\n"`. -/
def pyStrDatetime (e : CommitEvent) : String :=
  dateStr e.date ++ " " ++ timeStr e.time

/-- Python `commit_time.strftime('%Y-%m-%d %H:%M:%S')`, used in the commit
message. -/
def pyStrftimeYmdHms (e : CommitEvent) : String :=
  dateStr e.date ++ " " ++ timeStr e.time

/-- Python `commit_time.isoformat()`: `YYYY-MM-DDTHH:MM:SS` (microsecond 0),
the string assigned to `GIT_AUTHOR_DATE` and `GIT_COMMITTER_DATE`. -/
def isoStr (e : CommitEvent) : String :=
  dateStr e.date ++ "T" ++ timeStr e.time

/-- Oracle for Python's global `random` generator: the value underlying the
`k`-th draw. -/
abbrev RandOracle : Type := Nat → Int

/-- The value `random.randint(lo, hi)` yields for the `k`-th draw of oracle
`r`, when `lo ≤ hi`: the oracle value mapped into `[lo, hi]`. -/
def drawIn (lo hi : Int) (r : RandOracle) (k : Nat) : Int :=
  lo + Int.emod (r k) (hi - lo + 1)

/-- `random.randint(lo, hi)`: `none` models the `ValueError` raised on an
empty range (`hi < lo`); otherwise the drawn value and the advanced draw
index. -/
def randint (lo hi : Int) (r : RandOracle) (k : Nat) : Option (Int × Nat) :=
  if hi < lo then none else some (drawIn lo hi r k, k + 1)

/-- `random.choice([True, False])`, consuming one oracle draw. -/
def pyChoiceBool (r : RandOracle) (k : Nat) : Bool × Nat :=
  (Int.emod (r k) 2 == 0, k + 1)

/-- Observable side effects of the script: file writes, invocations of the
version-control tool (with the `GIT_AUTHOR_DATE` / `GIT_COMMITTER_DATE`
environment values where the source sets them), forge API calls, and log
lines. -/
inductive Effect where
  | createFile (path header : String)
  | appendLine (path line : String)
  | gitInit
  | gitRemoteAdd (name url : String)
  | gitAdd (path authorDate committerDate : String)
  | gitCommit (msg authorDate committerDate : String)
  | gitCheckoutBranch (branch : String)
  | gitPush (remote branch : String)
  | apiCreatePR (title body head base : String)
  | apiCreateReview (body event : String)
  | logInfo (msg : String)
  | logError (msg : String)
  deriving DecidableEq, Repr

/-- The parsed command-line arguments (`parse_args`), i.e. the spec's
RunConfig. -/
structure Args where
  repository : Option String
  max_commits : Int
  frequency : Int
  no_weekends : Bool
  days_before : Int
  days_after : Int
  file : String

/-- The repository state the script's setup phase inspects and updates:
whether `.git` exists, and the configured remote names (in the order
`git remote` lists them). -/
structure RepoState where
  gitDir : Bool
  remotes : List String
  deriving DecidableEq, Repr

/-- Python `s[n:]` on the character list of a string. -/
def pyDrop (s : String) (n : Nat) : String := ⟨s.data.drop n⟩

/-- Python `s[:-n]` (for `n ≤ len(s)`) on the character list of a string. -/
def pyDropEnd (s : String) (n : Nat) : String := ⟨s.data.take (s.data.length - n)⟩

/-- Python `s.startswith(pat)`. -/
def pyStartsWith (s pat : String) : Bool := pat.data.isPrefixOf s.data

/-- Python `s.endswith(pat)`. -/
def pyEndsWith (s pat : String) : Bool := pat.data.isSuffixOf s.data

/-- Occurrence of `pat` as a contiguous sublist. -/
def subOccurs (pat : List Char) : List Char → Bool
  | [] => pat.isEmpty
  | c :: t => pat.isPrefixOf (c :: t) || subOccurs pat t

/-- Python `pat in s` on strings: substring containment. -/
def pyInStr (pat s : String) : Bool := subOccurs pat.data s.data

/-- The URL normalization inside `get_github_repo_name_from_remote`: strip
a leading `git@github.com:`, else a leading `https://github.com/`, then a
trailing `.git`.  A URL with neither recognized prefix passes through with
only the `.git` suffix stripped. -/
def stripRemoteUrl (u : String) : String :=
  let u1 :=
    if pyStartsWith u "git@github.com:" then pyDrop u ("git@github.com:".length)
    else if pyStartsWith u "https://github.com/" then pyDrop u ("https://github.com/".length)
    else u
  if pyEndsWith u1 ".git" then pyDropEnd u1 4 else u1

/-- `get_github_repo_name_from_remote()`: `originUrl` is the outcome of
`git config --get remote.origin.url` (`none` when that command raises,
e.g. no origin configured); any exception is caught, logged, and turned
into `None`. -/
def get_github_repo_name_from_remote (originUrl : Option String) :
    List Effect × Option String :=
  match originUrl with
  | none => ([.logError "Error getting GitHub repo name"], none)
  | some u =>
      let name := stripRemoteUrl u
      ([.logInfo ("Determined GitHub repo name: " ++ name)], some name)

/-- `init_repo()`: run `git init` (with `check=True`) only when `.git` does
not exist; `false` in the third component models the uncaught
`CalledProcessError` when `git init` fails. -/
def init_repo (initOk : Bool) (s : RepoState) : List Effect × RepoState × Bool :=
  if s.gitDir then ([.logInfo "Git repository already initialized."], s, true)
  else if initOk then
    ([.gitInit, .logInfo "Initialized a new git repository."],
     { s with gitDir := true }, true)
  else ([], s, false)

/-- The stdout of `git remote`: one remote name per line. -/
def remoteStdout (remotes : List String) : String :=
  remotes.foldl (fun acc n => acc ++ n ++ "\n") ""

/-- `set_remote(remote_url)`: adds a remote called "origin" only when the
Python test `"origin" in result.stdout` is false — a substring test on the
output of `git remote`, not a test on the remote names themselves.
`false` models the uncaught error when `git remote add` fails. -/
def set_remote (remoteAddOk : Bool) (remote_url : String) (s : RepoState) :
    List Effect × RepoState × Bool :=
  if pyInStr "origin" (remoteStdout s.remotes) then
    ([.logInfo "Remote origin already set."], s, true)
  else if remoteAddOk then
    ([.gitRemoteAdd "origin" remote_url,
      .logInfo ("Set remote origin to " ++ remote_url ++ ".")],
     { s with remotes := s.remotes ++ ["origin"] }, true)
  else ([], s, false)

/-- The dates the `while current_date <= end_date` loop visits:
`start, start+1, ..., end` in ascending order (empty when `end < start`). -/
def walkedDays (startD endD : Int) : List Int :=
  (List.range (endD + 1 - startD).toNat).map (fun i : Nat => startD + (i : Int))

/-- The inner `for _ in range(num_commits)` loop of `simulate_commits`, at
the level of generated `CommitEvent`s: three `randint` draws per commit
(hour 0-23, minute 0-59, second 0-59). -/
def genEvents (r : RandOracle) (date : Int) : Nat → Nat → List CommitEvent × Nat
  | 0, k => ([], k)
  | n + 1, k =>
      let h := drawIn 0 23 r k
      let mi := drawIn 0 59 r (k + 1)
      let s := drawIn 0 59 r (k + 2)
      let rest := genEvents r date n (k + 3)
      (⟨date, ⟨h, mi, s⟩⟩ :: rest.1, rest.2)

/-- One active day of `simulate_commits`, at the level of generated
`CommitEvent`s: the activation draw `randint(1, 100)` against `frequency`,
then `randint(1, max_commits)` many events (`none` when that draw raises). -/
def dayEvents (a : Args) (r : RandOracle) (date : Int) (k : Nat) :
    Option (List CommitEvent × Nat) :=
  match randint 1 100 r k with
  | none => none
  | some (draw, k1) =>
      if draw ≤ a.frequency then
        match randint 1 a.max_commits r k1 with
        | none => none
        | some (num, k2) => some (genEvents r date num.toNat k2)
      else some ([], k1)

/-- The full date loop of `simulate_commits`, at the level of generated
`CommitEvent`s; weekend days are skipped before any draw when
`no_weekends` is set. -/
def daysEvents (a : Args) (r : RandOracle) : List Int → Nat → Option (List CommitEvent × Nat)
  | [], k => some ([], k)
  | d :: ds, k =>
      if a.no_weekends = true ∧ 5 ≤ weekday d then daysEvents a r ds k
      else
        match dayEvents a r d k with
        | none => none
        | some (es, k1) =>
            match daysEvents a r ds k1 with
            | none => none
            | some (rest, k2) => some (es ++ rest, k2)

/-- All `CommitEvent`s of a run: the date loop over
`today - days_before .. today + days_after`. -/
def commitEvents (a : Args) (today : Int) (r : RandOracle) (k : Nat) :
    Option (List CommitEvent × Nat) :=
  daysEvents a r (walkedDays (today - a.days_before) (today + a.days_after)) k

/-- The four effects one generated commit performs, in source order: append
the activity line, `git add` and `git commit` with both
`GIT_AUTHOR_DATE` and `GIT_COMMITTER_DATE` set to the event's
`isoformat()` timestamp, and the log line. -/
def eventEffects (fp : String) (e : CommitEvent) : List Effect :=
  [.appendLine fp ("Update at " ++ pyStrDatetime e ++ "\n"),
   .gitAdd fp (isoStr e) (isoStr e),
   .gitCommit ("Automated commit on " ++ pyStrftimeYmdHms e) (isoStr e) (isoStr e),
   .logInfo ("Committed: Automated commit on " ++ pyStrftimeYmdHms e)]

/-- The inner `for _ in range(num_commits)` loop of `simulate_commits`, at
the effect level.  `addOk` / `commitOk` are the outcomes of `git add` /
`git commit` (both run with `check=True`); a failed one leaves the effects
performed so far and aborts (`none`), since the raised error is uncaught. -/
def commitRun (fp : String) (addOk commitOk : Bool) (r : RandOracle) (date : Int) :
    Nat → Nat → List Effect × Option Nat
  | 0, k => ([], some k)
  | n + 1, k =>
      match randint 0 23 r k with
      | none => ([], none)
      | some (h, k1) =>
        match randint 0 59 r k1 with
        | none => ([], none)
        | some (mi, k2) =>
          match randint 0 59 r k2 with
          | none => ([], none)
          | some (s, k3) =>
            let e : CommitEvent := ⟨date, ⟨h, mi, s⟩⟩
            let lineEff : Effect :=
              .appendLine fp ("Update at " ++ pyStrDatetime e ++ "\n")
            if addOk then
              if commitOk then
                let rest := commitRun fp addOk commitOk r date n k3
                (eventEffects fp e ++ rest.1, rest.2)
              else ([lineEff, .gitAdd fp (isoStr e) (isoStr e)], none)
            else ([lineEff], none)

/-- One day of `simulate_commits` at the effect level: the activation draw,
then the commit loop when active. -/
def dayStep (a : Args) (addOk commitOk : Bool) (r : RandOracle) (date : Int) (k : Nat) :
    List Effect × Option Nat :=
  match randint 1 100 r k with
  | none => ([], none)
  | some (draw, k1) =>
      if draw ≤ a.frequency then
        match randint 1 a.max_commits r k1 with
        | none => ([], none)
        | some (num, k2) => commitRun a.file addOk commitOk r date num.toNat k2
      else ([], some k1)

/-- The date loop of `simulate_commits` at the effect level. -/
def simDays (a : Args) (addOk commitOk : Bool) (r : RandOracle) :
    List Int → Nat → List Effect × Option Nat
  | [], k => ([], some k)
  | d :: ds, k =>
      if a.no_weekends = true ∧ 5 ≤ weekday d then simDays a addOk commitOk r ds k
      else
        match dayStep a addOk commitOk r d k with
        | (t, none) => (t, none)
        | (t, some k1) =>
            let rest := simDays a addOk commitOk r ds k1
            (t ++ rest.1, rest.2)

/-- The activity-file setup at the top of `simulate_commits`: create the
file with its header when absent. -/
def preTrace (a : Args) (fileExists : Bool) : List Effect :=
  if fileExists then [.logInfo ("Using existing file " ++ a.file ++ ".")]
  else [.createFile a.file "Activity Log\n",
        .logInfo ("Created file " ++ a.file ++ ".")]

/-- `simulate_commits(args)`: file setup, then the date loop over
`today - days_before .. today + days_after`.  The second component is the
draw index after the loop, or `none` when an uncaught error aborted it. -/
def simulate_commits (a : Args) (fileExists addOk commitOk : Bool) (today : Int)
    (r : RandOracle) (k : Nat) : List Effect × Option Nat :=
  let loop := simDays a addOk commitOk r
    (walkedDays (today - a.days_before) (today + a.days_after)) k
  (preTrace a fileExists ++ loop.1, loop.2)

/-- Whether some walked, non-skipped day has an activation draw that is at
most `frequency` (the day on which `randint(1, max_commits)` is reached). -/
def hasActiveDay (a : Args) (r : RandOracle) : List Int → Nat → Bool
  | [], _ => false
  | d :: ds, k =>
      if a.no_weekends = true ∧ 5 ≤ weekday d then hasActiveDay a r ds k
      else if drawIn 1 100 r k ≤ a.frequency then true
      else hasActiveDay a r ds (k + 1)

/-- How the process ends: normal return from `main`, the explicit
`sys.exit("Branch creation failed.")`, or an uncaught exception (which
also terminates the process with a non-zero status). -/
inductive ExitKind where
  | normal
  | fatal (msg : String)
  | uncaught
  deriving DecidableEq, Repr

/-- The outcomes of all external interactions of one run: initial
repository state and activity-file presence, one success boolean per
external command kind, the observed origin URL, the `GITHUB_TOKEN`
environment variable, the `datetime.now()` used for the branch name, and
the random oracle. -/
structure World where
  repo : RepoState
  fileExists : Bool
  initOk : Bool
  remoteAddOk : Bool
  addOk : Bool
  commitOk : Bool
  checkoutOk : Bool
  pushOk : Bool
  prOk : Bool
  reviewOk : Bool
  originUrl : Option String
  token : Option String
  today : Int
  now : CommitEvent
  rand : RandOracle

/-- Python `datetime.now().strftime('%Y%m%d_%H%M%S')`. -/
def nowCompact (e : CommitEvent) : String :=
  let c := civilFromOrdinal e.date
  pad4 c.1 ++ pad2 c.2.1 ++ pad2 c.2.2 ++ "_" ++
    pad2 e.time.hour ++ pad2 e.time.minute ++ pad2 e.time.second

/-- The branch name `main` derives from the current timestamp. -/
def branchName (w : World) : String := "auto_pr_" ++ nowCompact w.now

/-- `create_new_branch(repo_path, branch_name)`: `git checkout -b`; on
failure the error is caught, logged, and `sys.exit("Branch creation
failed.")` terminates the process (the `false` component). -/
def create_new_branch (checkoutOk : Bool) (branch : String) : List Effect × Bool :=
  if checkoutOk then
    ([.gitCheckoutBranch branch,
      .logInfo ("Created and switched to branch: " ++ branch)], true)
  else ([.logError ("Error creating branch " ++ branch)], false)

/-- `push_branch(repo_path, branch_name)`: `git push --set-upstream origin
<branch>`; failure is caught and logged, execution continues. -/
def push_branch (pushOk : Bool) (branch : String) : List Effect :=
  if pushOk then
    [.gitPush "origin" branch, .logInfo ("Pushed branch " ++ branch ++ " to remote.")]
  else [.logError ("Error pushing branch " ++ branch)]

/-- `create_pull_request(...)`: one API call with fixed title and body,
head = the new branch, base = "main"; any exception is caught and logged
and `None` is returned. -/
def create_pull_request (prOk : Bool) (repo_full_name branch : String) :
    List Effect × Bool :=
  let call : Effect := .apiCreatePR "Automated Pull Request: Bot Update"
    "This pull request was created automatically by the bot." branch "main"
  if prOk then
    ([call, .logInfo ("Created pull request in " ++ repo_full_name)], true)
  else ([call, .logError "Error creating pull request"], false)

/-- The two fixed review bodies of `simulate_code_review`, selected by the
`random.choice([True, False])` outcome. -/
def reviewMessage (simulated_issues : Bool) : String :=
  if simulated_issues then
    "Automated review:\n- Found minor style issues in the diff.\n- Consider refactoring for better clarity.\nNote: This is a self-review comment; please address these issues."
  else "Automated review: Everything looks good. (Self-review comment)"

/-- `simulate_code_review(pr)`: one coin flip, one review API call with
event type "COMMENT"; failure is caught and logged, never fatal. -/
def simulate_code_review (reviewOk : Bool) (r : RandOracle) (k : Nat) :
    List Effect × Nat :=
  let flip := pyChoiceBool r k
  let call : Effect := .apiCreateReview (reviewMessage flip.1) "COMMENT"
  if reviewOk then
    ([call, .logInfo "Simulated code review: posted comment."], flip.2)
  else ([call, .logError "Error simulating code review"], flip.2)

/-- The tail of `main()` that runs only when a repository URL is
configured (source lines 200-223): create and push a branch, resolve the
repo name, read the token, open a pull request, post a review.  `t0` is
the effect trace accumulated so far, `k1` the current random-draw index.
Python's `if not x:` tests treat both `None` and the empty string as
absent, which the name and token checks reproduce. -/
def forgePhase (w : World) (k1 : Nat) (t0 : List Effect) : List Effect × ExitKind :=
  let br := create_new_branch w.checkoutOk (branchName w)
  if br.2 = false then (t0 ++ br.1, .fatal "Branch creation failed.") else
  let t1 := t0 ++ br.1 ++ push_branch w.pushOk (branchName w)
  let nm := get_github_repo_name_from_remote w.originUrl
  let t2 := t1 ++ nm.1
  match nm.2 with
  | none =>
      (t2 ++ [.logError "Could not determine GitHub repo name. Exiting."], .normal)
  | some name =>
    if name.isEmpty then
      (t2 ++ [.logError "Could not determine GitHub repo name. Exiting."], .normal)
    else
      match w.token with
      | none =>
          (t2 ++ [.logError "GITHUB_TOKEN environment variable not set. Exiting."], .normal)
      | some tok =>
        if tok.isEmpty then
          (t2 ++ [.logError "GITHUB_TOKEN environment variable not set. Exiting."], .normal)
        else
          let pr := create_pull_request w.prOk name (branchName w)
          let t3 := t2 ++ pr.1
          if pr.2 then
            let rev := simulate_code_review w.reviewOk w.rand k1
            (t3 ++ rev.1 ++ [.logInfo "Bot execution finished."], .normal)
          else
            (t3 ++ [.logError "Pull request creation failed.",
                    .logInfo "Bot execution finished."], .normal)

/-- `main()` (Lean reserves the name `main` for executables, hence
`mainRun`): init the repository, set the remote when a repository URL is
configured, generate the commits, then hand over to `forgePhase` iff a
repository URL is configured. -/
def mainRun (a : Args) (w : World) : List Effect × ExitKind :=
  let ini := init_repo w.initOk w.repo
  if ini.2.2 = false then (ini.1, .uncaught) else
  let rem :=
    match a.repository with
    | some url => set_remote w.remoteAddOk url ini.2.1
    | none => ([], ini.2.1, true)
  if rem.2.2 = false then (ini.1 ++ rem.1, .uncaught) else
  let sim := simulate_commits a w.fileExists w.addOk w.commitOk w.today w.rand 0
  let t0 := ini.1 ++ rem.1 ++ sim.1
  match sim.2 with
  | none => (t0, .uncaught)
  | some k1 =>
    match a.repository with
    | none =>
        (t0 ++ [.logInfo "No remote repository provided; skipping push and pull request creation.",
                .logInfo "Bot execution finished."], .normal)
    | some _ => forgePhase w k1 t0

/-- Effects that are forge API calls. -/
def isApiEffect : Effect → Bool
  | .apiCreatePR _ _ _ _ => true
  | .apiCreateReview _ _ => true
  | _ => false

/-- Effects that are pushes to the remote. -/
def isPushEffect : Effect → Bool
  | .gitPush _ _ => true
  | _ => false

/-- Effects that are review API calls. -/
def isReviewEffect : Effect → Bool
  | .apiCreateReview _ _ => true
  | _ => false

/-- Effects that append a line to the activity file. -/
def isAppendEffect : Effect → Bool
  | .appendLine _ _ => true
  | _ => false

/-- Effects that create a version-control commit. -/
def isCommitEffect : Effect → Bool
  | .gitCommit _ _ _ => true
  | _ => false

/-- Effects `simulate_commits` can perform: file writes, stage/commit
commands and log lines — never a push, a checkout or an API call. -/
def isSimEffect : Effect → Bool
  | .createFile _ _ => true
  | .appendLine _ _ => true
  | .gitAdd _ _ _ => true
  | .gitCommit _ _ _ => true
  | .logInfo _ => true
  | .logError _ => true
  | _ => false

lemma randint_eq {lo hi : Int} (r : RandOracle) (k : Nat) (h : lo ≤ hi) :
    randint lo hi r k = some (drawIn lo hi r k, k + 1) := by
  unfold randint
  rw [if_neg (by omega)]

lemma randint_none {lo hi : Int} (r : RandOracle) (k : Nat) (h : hi < lo) :
    randint lo hi r k = none := by
  unfold randint
  rw [if_pos h]

lemma drawIn_bounds {lo hi : Int} (r : RandOracle) (k : Nat) (h : lo ≤ hi) :
    lo ≤ drawIn lo hi r k ∧ drawIn lo hi r k ≤ hi := by
  unfold drawIn
  have h1 : 0 ≤ Int.emod (r k) (hi - lo + 1) := Int.emod_nonneg _ (by omega)
  have h2 : Int.emod (r k) (hi - lo + 1) < hi - lo + 1 := Int.emod_lt_of_pos _ (by omega)
  omega

lemma genEvents_length (r : RandOracle) (d : Int) :
    ∀ (n : Nat) (k : Nat), (genEvents r d n k).1.length = n := by
  intro n
  induction n with
  | zero => intro k; rfl
  | succ m ih => intro k; simp [genEvents, ih]

lemma genEvents_snd (r : RandOracle) (d : Int) :
    ∀ (n : Nat) (k : Nat), (genEvents r d n k).2 = k + 3 * n := by
  intro n
  induction n with
  | zero => intro k; simp [genEvents]
  | succ m ih => intro k; simp [genEvents, ih]; omega

lemma genEvents_mem (r : RandOracle) (d : Int) :
    ∀ (n : Nat) (k : Nat), ∀ e ∈ (genEvents r d n k).1,
      e.date = d ∧ 0 ≤ e.time.hour ∧ e.time.hour ≤ 23 ∧
      0 ≤ e.time.minute ∧ e.time.minute ≤ 59 ∧
      0 ≤ e.time.second ∧ e.time.second ≤ 59 := by
  intro n
  induction n with
  | zero => intro k e he; simp [genEvents] at he
  | succ m ih =>
      intro k e he
      simp only [genEvents, List.mem_cons] at he
      rcases he with rfl | he
      · refine ⟨rfl, ?_, ?_, ?_, ?_, ?_, ?_⟩
        · exact (drawIn_bounds r k (by omega)).1
        · exact (drawIn_bounds r k (by omega)).2
        · exact (drawIn_bounds r (k + 1) (by omega)).1
        · exact (drawIn_bounds r (k + 1) (by omega)).2
        · exact (drawIn_bounds r (k + 2) (by omega)).1
        · exact (drawIn_bounds r (k + 2) (by omega)).2
      · exact ih (k + 3) e he

lemma commitRun_eq_genEvents (fp : String) (r : RandOracle) (d : Int) :
    ∀ (n : Nat) (k : Nat),
      commitRun fp true true r d n k =
        ((genEvents r d n k).1.flatMap (eventEffects fp), some (genEvents r d n k).2) := by
  intro n
  induction n with
  | zero => intro k; simp [commitRun, genEvents]
  | succ m ih =>
      intro k
      rw [show commitRun fp true true r d (m + 1) k =
        (eventEffects fp ⟨d, ⟨drawIn 0 23 r k, drawIn 0 59 r (k + 1), drawIn 0 59 r (k + 2)⟩⟩
          ++ (commitRun fp true true r d m (k + 3)).1,
         (commitRun fp true true r d m (k + 3)).2) from by
          simp [commitRun, randint_eq _ _ (by omega : (0:Int) ≤ 23),
                randint_eq _ _ (by omega : (0:Int) ≤ 59)]]
      rw [ih]
      simp [genEvents]

lemma dayStep_eq_dayEvents (a : Args) (r : RandOracle) (d : Int) (k : Nat) :
    dayStep a true true r d k =
      match dayEvents a r d k with
      | none => ([], none)
      | some (es, k') => (es.flatMap (eventEffects a.file), some k') := by
  unfold dayStep dayEvents
  rw [randint_eq _ _ (by omega : (1:Int) ≤ 100)]
  dsimp only
  by_cases hact : drawIn 1 100 r k ≤ a.frequency
  · rw [if_pos hact, if_pos hact]
    rcases hnum : randint 1 a.max_commits r (k + 1) with _ | ⟨num, k2⟩
    · simp
    · simp [commitRun_eq_genEvents]
  · rw [if_neg hact, if_neg hact]
    simp

lemma simDays_eq_daysEvents (a : Args) (r : RandOracle) :
    ∀ (ds : List Int) (k : Nat) (es : List CommitEvent) (k' : Nat),
      daysEvents a r ds k = some (es, k') →
      simDays a true true r ds k = (es.flatMap (eventEffects a.file), some k') := by
  intro ds
  induction ds with
  | nil =>
      intro k es k' h
      simp [daysEvents] at h
      simp [simDays, h.1, h.2]
  | cons d t ih =>
      intro k es k' h
      by_cases hskip : a.no_weekends = true ∧ 5 ≤ weekday d
      · rw [daysEvents, if_pos hskip] at h
        rw [simDays, if_pos hskip]
        exact ih k es k' h
      · rw [daysEvents, if_neg hskip] at h
        rw [simDays, if_neg hskip]
        rcases hd : dayEvents a r d k with _ | ⟨es1, k1⟩
        · rw [hd] at h; exact absurd h (by simp)
        · rw [hd] at h
          dsimp only at h
          rcases ht : daysEvents a r t k1 with _ | ⟨es2, k2⟩
          · rw [ht] at h; exact absurd h (by simp)
          · rw [ht] at h
            dsimp only at h
            simp only [Option.some.injEq, Prod.mk.injEq] at h
            rw [dayStep_eq_dayEvents, hd]
            dsimp only
            rw [ih k1 es2 k2 ht]
            simp [← h.1, ← h.2, List.flatMap_append]

lemma dayEvents_isSome (a : Args) (r : RandOracle) (d : Int) (k : Nat)
    (h : 1 ≤ a.max_commits) :
    ∃ es k', dayEvents a r d k = some (es, k') := by
  unfold dayEvents
  rw [randint_eq _ _ (by omega : (1:Int) ≤ 100)]
  dsimp only
  by_cases hact : drawIn 1 100 r k ≤ a.frequency
  · rw [if_pos hact, randint_eq _ _ h]
    exact ⟨_, _, rfl⟩
  · rw [if_neg hact]
    exact ⟨_, _, rfl⟩

lemma daysEvents_isSome (a : Args) (r : RandOracle) (h : 1 ≤ a.max_commits) :
    ∀ (ds : List Int) (k : Nat), ∃ es k', daysEvents a r ds k = some (es, k') := by
  intro ds
  induction ds with
  | nil => intro k; exact ⟨[], k, rfl⟩
  | cons d t ih =>
      intro k
      by_cases hskip : a.no_weekends = true ∧ 5 ≤ weekday d
      · rw [daysEvents, if_pos hskip]; exact ih k
      · rw [daysEvents, if_neg hskip]
        obtain ⟨es1, k1, h1⟩ := dayEvents_isSome a r d k h
        rw [h1]
        dsimp only
        obtain ⟨es2, k2, h2⟩ := ih k1
        rw [h2]
        exact ⟨_, _, rfl⟩

lemma simDays_none_iff (a : Args) (aO cO : Bool) (r : RandOracle)
    (h : a.max_commits < 1) :
    ∀ (ds : List Int) (k : Nat),
      (simDays a aO cO r ds k).2 = none ↔ hasActiveDay a r ds k = true := by
  intro ds
  induction ds with
  | nil => intro k; simp [simDays, hasActiveDay]
  | cons d t ih =>
      intro k
      by_cases hskip : a.no_weekends = true ∧ 5 ≤ weekday d
      · rw [simDays, if_pos hskip, hasActiveDay, if_pos hskip]
        exact ih k
      · rw [simDays, if_neg hskip, hasActiveDay, if_neg hskip]
        by_cases hact : drawIn 1 100 r k ≤ a.frequency
        · have hd : dayStep a aO cO r d k = ([], none) := by
            unfold dayStep
            rw [randint_eq _ _ (by omega : (1:Int) ≤ 100)]
            dsimp only
            rw [if_pos hact, randint_none _ _ (by omega : a.max_commits < 1)]
          rw [hd, if_pos hact]
          simp
        · have hd : dayStep a aO cO r d k = ([], some (k + 1)) := by
            unfold dayStep
            rw [randint_eq _ _ (by omega : (1:Int) ≤ 100)]
            dsimp only
            rw [if_neg hact]
          rw [hd, if_neg hact]
          simp only []
          exact ih (k + 1)

lemma simulate_commits_eq (a : Args) (fe : Bool) (today : Int) (r : RandOracle)
    (k : Nat) (es : List CommitEvent) (k' : Nat)
    (h : commitEvents a today r k = some (es, k')) :
    simulate_commits a fe true true today r k =
      (preTrace a fe ++ es.flatMap (eventEffects a.file), some k') := by
  unfold simulate_commits
  rw [simDays_eq_daysEvents a r _ k es k' h]

lemma dayEvents_mem (a : Args) (r : RandOracle) (d : Int) (k : Nat)
    (es : List CommitEvent) (k' : Nat) (h : dayEvents a r d k = some (es, k')) :
    ∀ e ∈ es, e.date = d ∧ 0 ≤ e.time.hour ∧ e.time.hour ≤ 23 ∧
      0 ≤ e.time.minute ∧ e.time.minute ≤ 59 ∧
      0 ≤ e.time.second ∧ e.time.second ≤ 59 := by
  unfold dayEvents at h
  rw [randint_eq _ _ (by omega : (1:Int) ≤ 100)] at h
  dsimp only at h
  by_cases hact : drawIn 1 100 r k ≤ a.frequency
  · rw [if_pos hact] at h
    rcases hnum : randint 1 a.max_commits r (k + 1) with _ | ⟨num, k2⟩
    · rw [hnum] at h; exact absurd h (by simp)
    · rw [hnum] at h
      dsimp only at h
      simp only [Option.some.injEq] at h
      intro e he
      have he2 : e ∈ (genEvents r d num.toNat k2).1 := by rw [h]; exact he
      exact genEvents_mem r d num.toNat k2 e he2
  · rw [if_neg hact] at h
    simp only [Option.some.injEq, Prod.mk.injEq] at h
    intro e he
    rw [← h.1] at he
    exact absurd he (List.not_mem_nil e)

lemma daysEvents_mem (a : Args) (r : RandOracle) :
    ∀ (ds : List Int) (k : Nat) (es : List CommitEvent) (k' : Nat),
      daysEvents a r ds k = some (es, k') →
      ∀ e ∈ es, e.date ∈ ds ∧ (a.no_weekends = true → weekday e.date < 5) := by
  intro ds
  induction ds with
  | nil =>
      intro k es k' h e he
      simp [daysEvents] at h
      rw [h.1] at he
      exact absurd he (List.not_mem_nil e)
  | cons d t ih =>
      intro k es k' h e he
      by_cases hskip : a.no_weekends = true ∧ 5 ≤ weekday d
      · rw [daysEvents, if_pos hskip] at h
        obtain ⟨hmem, hwk⟩ := ih k es k' h e he
        exact ⟨List.mem_cons_of_mem d hmem, hwk⟩
      · rw [daysEvents, if_neg hskip] at h
        rcases hd : dayEvents a r d k with _ | ⟨es1, k1⟩
        · rw [hd] at h; exact absurd h (by simp)
        · rw [hd] at h
          dsimp only at h
          rcases ht : daysEvents a r t k1 with _ | ⟨es2, k2⟩
          · rw [ht] at h; exact absurd h (by simp)
          · rw [ht] at h
            simp only [Option.some.injEq, Prod.mk.injEq] at h
            rw [← h.1, List.mem_append] at he
            rcases he with he1 | he2
            · have hdate := (dayEvents_mem a r d k es1 k1 hd e he1).1
              refine ⟨by rw [hdate]; exact List.mem_cons_self d t, ?_⟩
              intro hnw
              rw [hdate]
              by_cases hge : 5 ≤ weekday d
              · exact absurd ⟨hnw, hge⟩ hskip
              · omega
            · obtain ⟨hmem, hwk⟩ := ih k1 es2 k2 ht e he2
              exact ⟨List.mem_cons_of_mem d hmem, hwk⟩

lemma eventEffects_sim (fp : String) (e : CommitEvent) :
    ∀ x ∈ eventEffects fp e, isSimEffect x = true := by
  intro x hx
  simp only [eventEffects, List.mem_cons, List.mem_singleton] at hx
  rcases hx with rfl | rfl | rfl | rfl | hx
  · rfl
  · rfl
  · rfl
  · rfl
  · exact absurd hx (List.not_mem_nil x)

lemma commitRun_sim (fp : String) (aO cO : Bool) (r : RandOracle) (d : Int) :
    ∀ (n : Nat) (k : Nat), ∀ x ∈ (commitRun fp aO cO r d n k).1, isSimEffect x = true := by
  intro n
  induction n with
  | zero => intro k x hx; simp [commitRun] at hx
  | succ m ih =>
      intro k x hx
      rw [commitRun, randint_eq _ _ (by omega : (0:Int) ≤ 23)] at hx
      dsimp only at hx
      rw [randint_eq _ _ (by omega : (0:Int) ≤ 59)] at hx
      dsimp only at hx
      rw [randint_eq _ _ (by omega : (0:Int) ≤ 59)] at hx
      dsimp only at hx
      rcases haO : aO with _ | _
      · rw [haO] at hx
        simp only [Bool.false_eq_true, if_false] at hx
        simp only [List.mem_singleton] at hx
        rw [hx]; rfl
      · rw [haO] at hx
        simp only [if_true] at hx
        rcases hcO : cO with _ | _
        · rw [hcO] at hx
          simp only [Bool.false_eq_true, if_false] at hx
          simp only [List.mem_cons, List.mem_singleton] at hx
          rcases hx with rfl | rfl | hx
          · rfl
          · rfl
          · exact absurd hx (List.not_mem_nil x)
        · rw [hcO] at hx
          simp only [if_true, List.mem_append] at hx
          rcases hx with hx | hx
          · exact eventEffects_sim fp _ x hx
          · rw [haO, hcO] at ih
            exact ih _ x hx

lemma dayStep_sim (a : Args) (aO cO : Bool) (r : RandOracle) (d : Int) (k : Nat) :
    ∀ x ∈ (dayStep a aO cO r d k).1, isSimEffect x = true := by
  intro x hx
  rw [dayStep, randint_eq _ _ (by omega : (1:Int) ≤ 100)] at hx
  dsimp only at hx
  by_cases hact : drawIn 1 100 r k ≤ a.frequency
  · rw [if_pos hact] at hx
    rcases hnum : randint 1 a.max_commits r (k + 1) with _ | ⟨num, k2⟩
    · rw [hnum] at hx; simp at hx
    · rw [hnum] at hx
      exact commitRun_sim a.file aO cO r d num.toNat k2 x hx
  · rw [if_neg hact] at hx
    simp at hx

lemma simDays_sim (a : Args) (aO cO : Bool) (r : RandOracle) :
    ∀ (ds : List Int) (k : Nat), ∀ x ∈ (simDays a aO cO r ds k).1, isSimEffect x = true := by
  intro ds
  induction ds with
  | nil => intro k x hx; simp [simDays] at hx
  | cons d t ih =>
      intro k x hx
      by_cases hskip : a.no_weekends = true ∧ 5 ≤ weekday d
      · rw [simDays, if_pos hskip] at hx
        exact ih k x hx
      · rw [simDays, if_neg hskip] at hx
        rcases hd : dayStep a aO cO r d k with ⟨t1, res⟩
        rw [hd] at hx
        rcases res with _ | k1
        · have := dayStep_sim a aO cO r d k x
          rw [hd] at this
          exact this hx
        · dsimp only at hx
          rw [List.mem_append] at hx
          rcases hx with hx | hx
          · have := dayStep_sim a aO cO r d k x
            rw [hd] at this
            exact this hx
          · exact ih k1 x hx

lemma preTrace_sim (a : Args) (fe : Bool) :
    ∀ x ∈ preTrace a fe, isSimEffect x = true := by
  intro x hx
  unfold preTrace at hx
  rcases fe with _ | _
  · simp only [Bool.false_eq_true, if_false, List.mem_cons, List.mem_singleton] at hx
    rcases hx with rfl | rfl | hx
    · rfl
    · rfl
    · exact absurd hx (List.not_mem_nil x)
  · simp only [if_true, List.mem_singleton] at hx
    rw [hx]; rfl

lemma simulate_commits_sim (a : Args) (fe aO cO : Bool) (today : Int)
    (r : RandOracle) (k : Nat) :
    ∀ x ∈ (simulate_commits a fe aO cO today r k).1, isSimEffect x = true := by
  intro x hx
  unfold simulate_commits at hx
  dsimp only at hx
  rw [List.mem_append] at hx
  rcases hx with hx | hx
  · exact preTrace_sim a fe x hx
  · exact simDays_sim a aO cO r _ k x hx

lemma isSimEffect_not_push_api {x : Effect} (h : isSimEffect x = true) :
    isPushEffect x = false ∧ isApiEffect x = false := by
  cases x <;> simp [isSimEffect, isPushEffect, isApiEffect] at h ⊢

lemma init_repo_not_push_api (b : Bool) (s : RepoState) :
    ∀ x ∈ (init_repo b s).1, isPushEffect x = false ∧ isApiEffect x = false := by
  intro x hx
  unfold init_repo at hx
  by_cases hg : s.gitDir
  · rw [if_pos hg] at hx
    simp only [List.mem_singleton] at hx
    rw [hx]; exact ⟨rfl, rfl⟩
  · rw [if_neg hg] at hx
    rcases b with _ | _
    · simp only [Bool.false_eq_true, if_false] at hx
      exact absurd hx (List.not_mem_nil x)
    · simp only [if_true, List.mem_cons, List.mem_singleton] at hx
      rcases hx with rfl | rfl | hx
      · exact ⟨rfl, rfl⟩
      · exact ⟨rfl, rfl⟩
      · exact absurd hx (List.not_mem_nil x)

lemma set_remote_not_push_api (b : Bool) (url : String) (s : RepoState) :
    ∀ x ∈ (set_remote b url s).1, isPushEffect x = false ∧ isApiEffect x = false := by
  intro x hx
  unfold set_remote at hx
  by_cases ho : pyInStr "origin" (remoteStdout s.remotes) = true
  · rw [if_pos ho] at hx
    simp only [List.mem_singleton] at hx
    rw [hx]; exact ⟨rfl, rfl⟩
  · rw [if_neg ho] at hx
    rcases b with _ | _
    · simp only [Bool.false_eq_true, if_false] at hx
      exact absurd hx (List.not_mem_nil x)
    · simp only [if_true, List.mem_cons, List.mem_singleton] at hx
      rcases hx with rfl | rfl | hx
      · exact ⟨rfl, rfl⟩
      · exact ⟨rfl, rfl⟩
      · exact absurd hx (List.not_mem_nil x)

lemma countP_flatMap_eventEffects (fp : String) :
    ∀ es : List CommitEvent,
      (es.flatMap (eventEffects fp)).countP isAppendEffect = es.length ∧
      (es.flatMap (eventEffects fp)).countP isCommitEffect = es.length := by
  intro es
  induction es with
  | nil => exact ⟨rfl, rfl⟩
  | cons e t ih =>
      simp only [List.flatMap_cons, List.countP_append, List.length_cons, ih.1, ih.2]
      constructor
      · have : (eventEffects fp e).countP isAppendEffect = 1 := by
          simp [eventEffects, List.countP_cons, isAppendEffect]
        omega
      · have : (eventEffects fp e).countP isCommitEffect = 1 := by
          simp [eventEffects, List.countP_cons, isCommitEffect]
        omega

lemma walkedDays_mem (a b d : Int) :
    d ∈ walkedDays a b ↔ a ≤ d ∧ d ≤ b := by
  unfold walkedDays
  constructor
  · intro h
    obtain ⟨i, hi, hd⟩ := List.mem_map.mp h
    rw [List.mem_range] at hi
    omega
  · rintro ⟨h1, h2⟩
    refine List.mem_map.mpr ⟨(d - a).toNat, ?_, ?_⟩
    · rw [List.mem_range]; omega
    · omega

lemma walkedDays_sorted (a b : Int) :
    List.Pairwise (· < ·) (walkedDays a b) := by
  unfold walkedDays
  refine List.Pairwise.map _ ?_ (List.pairwise_lt_range _)
  intro i j hij
  omega

lemma subOccurs_self_append (pat B : List Char) :
    subOccurs pat (pat ++ B) = true := by
  rcases pat with _ | ⟨p, pt⟩
  · rcases B with _ | ⟨c, t⟩
    · rfl
    · simp [subOccurs]
  · rw [List.cons_append, subOccurs]
    have : (p :: pt).isPrefixOf ((p :: pt) ++ B) = true :=
      List.isPrefixOf_iff_prefix.mpr (List.prefix_append _ _)
    rw [← List.cons_append, this]
    rfl

lemma subOccurs_mid (pat B : List Char) :
    ∀ A : List Char, subOccurs pat (A ++ (pat ++ B)) = true := by
  intro A
  induction A with
  | nil => rw [List.nil_append]; exact subOccurs_self_append pat B
  | cons x xt ih =>
      rw [List.cons_append, subOccurs, ih, Bool.or_true]

lemma remoteStdout_data :
    ∀ (l : List String) (acc : String),
      (List.foldl (fun acc n => acc ++ n ++ "\n") acc l).data =
        acc.data ++ l.flatMap (fun n => n.data ++ "\n".data) := by
  intro l
  induction l with
  | nil => intro acc; simp
  | cons n t ih =>
      intro acc
      rw [List.foldl_cons, ih, List.flatMap_cons]
      simp [List.append_assoc]

lemma emptyString_data : ("" : String).data = [] := rfl

lemma pyInStr_origin_of_mem {l : List String} (h : "origin" ∈ l) :
    pyInStr "origin" (remoteStdout l) = true := by
  obtain ⟨l1, l2, rfl⟩ := List.append_of_mem h
  unfold pyInStr remoteStdout
  rw [remoteStdout_data _ ""]
  simp only [List.flatMap_append, List.flatMap_cons, emptyString_data,
    List.nil_append, List.append_assoc]
  exact subOccurs_mid _ _ _

lemma init_repo_ok (s : RepoState) : (init_repo true s).2.2 = true := by
  unfold init_repo
  by_cases h : s.gitDir <;> simp [h]

lemma set_remote_ok (url : String) (s : RepoState) :
    (set_remote true url s).2.2 = true := by
  unfold set_remote
  by_cases h : pyInStr "origin" (remoteStdout s.remotes) = true <;> simp [h]

lemma mainRun_forge (a : Args) (w : World) (url : String)
    (hrep : a.repository = some url) (hinit : w.initOk = true)
    (hradd : w.remoteAddOk = true) (hadd : w.addOk = true)
    (hcommit : w.commitOk = true) (hmax : 1 ≤ a.max_commits) :
    ∃ (t0 : List Effect) (k1 : Nat),
      (∀ x ∈ t0, isPushEffect x = false ∧ isApiEffect x = false) ∧
      mainRun a w = forgePhase w k1 t0 := by
  obtain ⟨es, k1, hse⟩ := daysEvents_isSome a w.rand hmax
    (walkedDays (w.today - a.days_before) (w.today + a.days_after)) 0
  have hsim2 : (simulate_commits a w.fileExists w.addOk w.commitOk w.today w.rand 0).2
      = some k1 := by
    unfold simulate_commits
    rw [hadd, hcommit]
    rw [simDays_eq_daysEvents a w.rand _ 0 es k1 hse]
  refine ⟨(init_repo w.initOk w.repo).1
      ++ (set_remote w.remoteAddOk url (init_repo w.initOk w.repo).2.1).1
      ++ (simulate_commits a w.fileExists w.addOk w.commitOk w.today w.rand 0).1,
    k1, ?_, ?_⟩
  · intro x hx
    rw [List.append_assoc, List.mem_append] at hx
    rcases hx with hx | hx
    · exact init_repo_not_push_api w.initOk w.repo x hx
    · rw [List.mem_append] at hx
      rcases hx with hx | hx
      · exact set_remote_not_push_api w.remoteAddOk url _ x hx
      · exact isSimEffect_not_push_api (simulate_commits_sim a _ _ _ _ _ _ x hx)
  · unfold mainRun
    rw [hrep, hinit, hradd]
    dsimp only
    rw [init_repo_ok, set_remote_ok, hsim2]
    simp only [Bool.true_eq_false, if_false]

lemma create_new_branch_ok (b : String) :
    create_new_branch true b =
      ([.gitCheckoutBranch b, .logInfo ("Created and switched to branch: " ++ b)], true) := by
  unfold create_new_branch
  simp

lemma forgePhase_fatal (w : World) (k1 : Nat) (t0 : List Effect)
    (hco : w.checkoutOk = false) :
    forgePhase w k1 t0 =
      (t0 ++ [.logError ("Error creating branch " ++ branchName w)],
       .fatal "Branch creation failed.") := by
  unfold forgePhase create_new_branch
  rw [hco]
  simp

lemma forgePhase_normal (w : World) (k1 : Nat) (t0 : List Effect)
    (hco : w.checkoutOk = true) : (forgePhase w k1 t0).2 = .normal := by
  unfold forgePhase
  rw [hco, create_new_branch_ok]
  simp only [Bool.true_eq_false, if_false]
  rcases hurl : w.originUrl with _ | u <;>
    rcases htok : w.token with _ | tok <;>
      rcases hpr : w.prOk with _ | _ <;>
        simp [get_github_repo_name_from_remote, create_pull_request,
              simulate_code_review, hurl, htok, hpr] <;>
        (try (split <;> (try simp) <;> (try split <;> simp)))

lemma forgePhase_no_token (w : World) (k1 : Nat) (t0 : List Effect) (u : String)
    (hco : w.checkoutOk = true) (hpush : w.pushOk = true)
    (hurl : w.originUrl = some u) (hname : (stripRemoteUrl u).isEmpty = false)
    (htok : w.token = none) :
    forgePhase w k1 t0 =
      (t0 ++ [.gitCheckoutBranch (branchName w),
              .logInfo ("Created and switched to branch: " ++ branchName w),
              .gitPush "origin" (branchName w),
              .logInfo ("Pushed branch " ++ branchName w ++ " to remote."),
              .logInfo ("Determined GitHub repo name: " ++ stripRemoteUrl u),
              .logError "GITHUB_TOKEN environment variable not set. Exiting."],
       .normal) := by
  unfold forgePhase push_branch get_github_repo_name_from_remote
  rw [hco, create_new_branch_ok, hurl, hpush, htok]
  simp [hname]

/-- Concrete fixtures for witnesses and counterexamples.  `rOracle0` is the
all-zeros random oracle; `argsA` is a one-day run (`days_before =
days_after = 0`, `frequency = 100`, `max_commits = 1`) with a repository
URL; day ordinal 739901 is 2026-10-12, a Monday. -/
def rOracle0 : RandOracle := fun _ => 0

def argsA : Args :=
  ⟨some "git@github.com:u/r.git", 1, 100, false, 0, 0, "activity.txt"⟩

def argsB : Args := { argsA with max_commits := 0 }

def cEvent0 : CommitEvent := ⟨739901, ⟨0, 0, 0⟩⟩

/-- A world in which every external command and API call succeeds. -/
def worldA : World :=
  ⟨⟨true, ["origin"]⟩, true, true, true, true, true, true, true, true, true,
   some "git@github.com:u/r.git", some "tok", 739901, ⟨739901, ⟨1, 2, 3⟩⟩, rOracle0⟩

def worldNoToken : World := { worldA with token := none }

def worldCommitFail : World := { worldA with commitOk := false }

def worldBranchFail : World := { worldA with checkoutOk := false }

/-- C1: every CommitEvent generated on an active day yields exactly one
activity line `"Update at <timestamp>"` and exactly one commit whose
author and committer dates (via `GIT_AUTHOR_DATE` / `GIT_COMMITTER_DATE`)
are the event's `isoformat()` timestamp and whose message is
`"Automated commit on <YYYY-MM-DD HH:MM:SS>"`: the effect trace of
`simulate_commits` is exactly the concatenation, over the generated
events, of the four-effect block `eventEffects`, and the two timestamp
renderings used by the line and the message agree. -/
theorem gitsim_C1 (a : Args) (fe : Bool) (today : Int) (r : RandOracle) (k : Nat)
    (es : List CommitEvent) (k' : Nat)
    (h : commitEvents a today r k = some (es, k')) :
    simulate_commits a fe true true today r k =
      (preTrace a fe ++ es.flatMap (eventEffects a.file), some k')
    ∧ (∀ e ∈ es, eventEffects a.file e =
        [.appendLine a.file ("Update at " ++ pyStrDatetime e ++ "\n"),
         .gitAdd a.file (isoStr e) (isoStr e),
         .gitCommit ("Automated commit on " ++ pyStrftimeYmdHms e) (isoStr e) (isoStr e),
         .logInfo ("Committed: Automated commit on " ++ pyStrftimeYmdHms e)])
    ∧ (∀ e : CommitEvent, pyStrftimeYmdHms e = pyStrDatetime e)
    ∧ (es.flatMap (eventEffects a.file)).countP isAppendEffect = es.length
    ∧ (es.flatMap (eventEffects a.file)).countP isCommitEffect = es.length := by
  refine ⟨simulate_commits_eq a fe today r k es k' h, ?_, ?_, ?_, ?_⟩
  · intro e _
    rfl
  · intro e
    rfl
  · exact (countP_flatMap_eventEffects a.file es).1
  · exact (countP_flatMap_eventEffects a.file es).2

theorem gitsim_C1_witness :
    simulate_commits argsA true true true 739901 rOracle0 0 =
      (preTrace argsA true ++ [cEvent0].flatMap (eventEffects argsA.file), some 5) :=
  (gitsim_C1 argsA true 739901 rOracle0 0 [cEvent0] 5 (by decide)).1

/-- C2: on every walked (non-skipped) day, activation is decided by a
`randint(1, 100)` draw — the draw lies in `[1, 100]` and every value in
`[1, 100]` is realizable; a draw above `frequency` produces no effects and
only consumes that one draw; a draw at most `frequency` (with
`max_commits ≥ 1`) generates `randint(1, max_commits) ∈ [1, max_commits]`
events, each on that date with hour in `[0, 23]`, minute and second in
`[0, 59]`. -/
theorem gitsim_C2 (a : Args) (r : RandOracle) (d : Int) (k : Nat) :
    (1 ≤ drawIn 1 100 r k ∧ drawIn 1 100 r k ≤ 100)
    ∧ (∀ aO cO : Bool, a.frequency < drawIn 1 100 r k →
        dayStep a aO cO r d k = ([], some (k + 1)))
    ∧ (drawIn 1 100 r k ≤ a.frequency → 1 ≤ a.max_commits →
        1 ≤ drawIn 1 a.max_commits r (k + 1)
        ∧ drawIn 1 a.max_commits r (k + 1) ≤ a.max_commits
        ∧ ∃ es k2, dayEvents a r d k = some (es, k2)
            ∧ (es.length : Int) = drawIn 1 a.max_commits r (k + 1)
            ∧ 1 ≤ es.length ∧ (es.length : Int) ≤ a.max_commits
            ∧ (∀ e ∈ es, e.date = d ∧ 0 ≤ e.time.hour ∧ e.time.hour ≤ 23
                ∧ 0 ≤ e.time.minute ∧ e.time.minute ≤ 59
                ∧ 0 ≤ e.time.second ∧ e.time.second ≤ 59)
            ∧ dayStep a true true r d k = (es.flatMap (eventEffects a.file), some k2))
    ∧ (∀ v : Int, 1 ≤ v → v ≤ 100 → ∃ r2 : RandOracle, drawIn 1 100 r2 k = v) := by
  refine ⟨drawIn_bounds r k (by omega), ?_, ?_, ?_⟩
  · intro aO cO hgt
    unfold dayStep
    rw [randint_eq _ _ (by omega : (1:Int) ≤ 100)]
    dsimp only
    rw [if_neg (by omega)]
  · intro hact hmax
    refine ⟨(drawIn_bounds r (k + 1) hmax).1, (drawIn_bounds r (k + 1) hmax).2, ?_⟩
    have hde : dayEvents a r d k =
        some (genEvents r d (drawIn 1 a.max_commits r (k + 1)).toNat (k + 2)) := by
      unfold dayEvents
      rw [randint_eq _ _ (by omega : (1:Int) ≤ 100)]
      dsimp only
      rw [if_pos hact, randint_eq _ _ hmax]
    refine ⟨_, _, hde, ?_, ?_, ?_, ?_, ?_⟩
    · rw [genEvents_length]
      have h1 := (drawIn_bounds r (k + 1) hmax).1
      omega
    · rw [genEvents_length]
      have h1 := (drawIn_bounds r (k + 1) hmax).1
      omega
    · rw [genEvents_length]
      have h1 := (drawIn_bounds r (k + 1) hmax)
      omega
    · intro e he
      exact genEvents_mem r d _ _ e he
    · rw [dayStep_eq_dayEvents, hde]
  · intro v h1 h2
    refine ⟨fun _ => v - 1, ?_⟩
    show 1 + (v - 1) % (100 - 1 + 1) = v
    rw [Int.emod_eq_of_lt (by omega) (by omega)]
    omega

theorem gitsim_C2_witness :
    ∃ es k2, dayEvents argsA rOracle0 739901 0 = some (es, k2)
      ∧ 1 ≤ es.length ∧ (es.length : Int) ≤ argsA.max_commits := by
  obtain ⟨hb1, hb2, es, k2, he, hlen, h1, h2, hmem, hds⟩ :=
    (gitsim_C2 argsA rOracle0 739901 0).2.2.1 (by decide) (by decide)
  exact ⟨es, k2, he, h1, h2⟩

def argsW : Args := { argsA with no_weekends := true, days_before := 6 }

/-- C5: with `no_weekends` set, no generated CommitEvent (hence no commit
and no activity line, by C1's trace correspondence) falls on a Saturday or
Sunday (Python weekday 5 or 6), for all frequencies and `max_commits`; a
weekend day is dropped from the loop without consuming any random draw:
processing it is literally the processing of the remaining days at the
same draw index. -/
theorem gitsim_C5 (a : Args) (r : RandOracle) (today : Int) (k : Nat)
    (hw : a.no_weekends = true) :
    (∀ es k', commitEvents a today r k = some (es, k') →
       ∀ e ∈ es, weekday e.date < 5)
    ∧ (∀ (aO cO : Bool) (d : Int) (ds : List Int) (k0 : Nat), 5 ≤ weekday d →
        simDays a aO cO r (d :: ds) k0 = simDays a aO cO r ds k0) := by
  constructor
  · intro es k' h e he
    exact (daysEvents_mem a r _ k es k' h e he).2 hw
  · intro aO cO d ds k0 hd
    rw [simDays, if_pos ⟨hw, hd⟩]

theorem gitsim_C5_witness :
    simDays argsW true true rOracle0 [739906] 0 = simDays argsW true true rOracle0 [] 0 :=
  (gitsim_C5 argsW rOracle0 739901 0 rfl).2 true true 739906 [] 0 (by decide)

/-- C6: the walked date sequence is exactly the integer interval
`today - days_before .. today + days_after`, in strictly ascending order
(hence each date exactly once); with `days_before = days_after = 0` it is
the single day `today`; and every generated CommitEvent's date lies in the
walked sequence. -/
theorem gitsim_C6 (today db da : Int) :
    (∀ d : Int, d ∈ walkedDays (today - db) (today + da) ↔
       today - db ≤ d ∧ d ≤ today + da)
    ∧ List.Pairwise (· < ·) (walkedDays (today - db) (today + da))
    ∧ (db = 0 → da = 0 → walkedDays (today - db) (today + da) = [today])
    ∧ (∀ (a : Args) (r : RandOracle) (k : Nat) (es : List CommitEvent) (k' : Nat),
        a.days_before = db → a.days_after = da →
        commitEvents a today r k = some (es, k') →
        ∀ e ∈ es, e.date ∈ walkedDays (today - db) (today + da)) := by
  refine ⟨fun d => walkedDays_mem _ _ d, walkedDays_sorted _ _, ?_, ?_⟩
  · intro hdb hda
    rw [hdb, hda]
    unfold walkedDays
    rw [show (today + 0 + 1 - (today - 0)).toNat = 1 from by omega,
        show List.range 1 = [0] from rfl]
    simp
  · intro a r k es k' hdb hda h e he
    unfold commitEvents at h
    rw [hdb, hda] at h
    exact (daysEvents_mem a r _ k es k' h e he).1

theorem gitsim_C6_witness :
    walkedDays (739901 - 0) (739901 + 0) = [739901]
    ∧ cEvent0.date ∈ walkedDays (739901 - 0) (739901 + 0) :=
  ⟨(gitsim_C6 739901 0 0).2.2.1 rfl rfl,
   (gitsim_C6 739901 0 0).2.2.2 argsA rOracle0 0 [cEvent0] 5 rfl rfl (by decide)
     cEvent0 (List.mem_singleton.mpr rfl)⟩

/-- C10: with `max_commits ≥ 1` the commit-count draw `randint(1,
max_commits)` is always well-defined, so the whole generation loop
completes (given the stage and commit commands succeed); with
`max_commits < 1` the run aborts (uncaught `ValueError`) exactly when some
walked, non-skipped day's activation draw is at most `frequency` — i.e. on
the first active day. -/
theorem gitsim_C10 (a : Args) (fe : Bool) (today : Int) (r : RandOracle) (k : Nat) :
    (1 ≤ a.max_commits →
       (simulate_commits a fe true true today r k).2.isSome = true)
    ∧ (a.max_commits < 1 → ∀ aO cO : Bool,
       ((simulate_commits a fe aO cO today r k).2 = none ↔
         hasActiveDay a r
           (walkedDays (today - a.days_before) (today + a.days_after)) k = true)) := by
  constructor
  · intro hmax
    obtain ⟨es, k', hse⟩ := daysEvents_isSome a r hmax
      (walkedDays (today - a.days_before) (today + a.days_after)) k
    unfold simulate_commits
    rw [simDays_eq_daysEvents a r _ k es k' hse]
    rfl
  · intro hmax aO cO
    unfold simulate_commits
    exact simDays_none_iff a aO cO r hmax _ k

theorem gitsim_C10_witness :
    (simulate_commits argsA true true true 739901 rOracle0 0).2.isSome = true
    ∧ (simulate_commits argsB true true true 739901 rOracle0 0).2 = none :=
  ⟨(gitsim_C10 argsA true 739901 rOracle0 0).1 (by decide),
   (((gitsim_C10 argsB true 739901 rOracle0 0).2 (by decide) true true)).mpr (by decide)⟩

/-- C3 counterexample: a run in which every command involved in branch
creation and pushing succeeds (`checkoutOk = true`) but `git commit`
(invoked with `check=True`) fails: the uncaught `CalledProcessError`
aborts the run with a non-zero termination that is not the
branch-creation failure exit, and push, PR creation and review are never
attempted — refuting "branch creation failure is the one and only
condition that aborts the run early with non-zero termination; every
other external-command failure is logged and the run continues". -/
theorem gitsim_C3_counterexample :
    worldCommitFail.checkoutOk = true
    ∧ worldCommitFail.commitOk = false
    ∧ (mainRun argsA worldCommitFail).2 = ExitKind.uncaught
    ∧ (mainRun argsA worldCommitFail).1.countP isPushEffect = 0
    ∧ (mainRun argsA worldCommitFail).1.countP isApiEffect = 0 := by
  refine ⟨rfl, rfl, ?_, ?_, ?_⟩ <;> decide

/-- C3 amended: branch creation failure is the only **caught** failure that
is converted into an explicit non-zero termination
(`sys.exit("Branch creation failed.")`); when it happens, push, PR
creation and review are never attempted.  Failures of push, repo-name
resolution, a missing token, PR creation and review are logged and the
run completes normally.  However, failures of the setup and commit
commands (`git init`, `git remote add`, `git add`, `git commit`, all run
with `check=True`) also abort the run, as uncaught errors — hence the
hypotheses that those commands succeed. -/
theorem gitsim_C3_amended (a : Args) (w : World) (url : String)
    (hrep : a.repository = some url) (hinit : w.initOk = true)
    (hradd : w.remoteAddOk = true) (hadd : w.addOk = true)
    (hcommit : w.commitOk = true) (hmax : 1 ≤ a.max_commits) :
    (w.checkoutOk = false →
       (mainRun a w).2 = ExitKind.fatal "Branch creation failed."
       ∧ ∀ x ∈ (mainRun a w).1, isPushEffect x = false ∧ isApiEffect x = false)
    ∧ (w.checkoutOk = true → (mainRun a w).2 = ExitKind.normal) := by
  obtain ⟨t0, k1, hmem, heq⟩ :=
    mainRun_forge a w url hrep hinit hradd hadd hcommit hmax
  constructor
  · intro hco
    rw [heq, forgePhase_fatal w k1 t0 hco]
    refine ⟨rfl, ?_⟩
    intro x hx
    rw [List.mem_append] at hx
    rcases hx with hx | hx
    · exact hmem x hx
    · rw [List.mem_singleton] at hx
      rw [hx]
      exact ⟨rfl, rfl⟩
  · intro hco
    rw [heq]
    exact forgePhase_normal w k1 t0 hco

theorem gitsim_C3_amended_witness :
    (mainRun argsA worldBranchFail).2 = ExitKind.fatal "Branch creation failed."
    ∧ (mainRun argsA worldA).2 = ExitKind.normal :=
  ⟨((gitsim_C3_amended argsA worldBranchFail "git@github.com:u/r.git"
      rfl rfl rfl rfl rfl (by decide)).1 rfl).1,
   (gitsim_C3_amended argsA worldA "git@github.com:u/r.git"
      rfl rfl rfl rfl rfl (by decide)).2 rfl⟩

/-- C8: with a repository URL configured but `GITHUB_TOKEN` unset (and the
local git commands succeeding), the branch is still created and pushed,
pull-request creation is skipped with a logged error, no forge API call
appears in the trace, and the run completes normally. -/
theorem gitsim_C8 (a : Args) (w : World) (url u : String)
    (hrep : a.repository = some url) (hinit : w.initOk = true)
    (hradd : w.remoteAddOk = true) (hadd : w.addOk = true)
    (hcommit : w.commitOk = true) (hmax : 1 ≤ a.max_commits)
    (hco : w.checkoutOk = true) (hpush : w.pushOk = true)
    (hurl : w.originUrl = some u) (hname : (stripRemoteUrl u).isEmpty = false)
    (htok : w.token = none) :
    (mainRun a w).2 = ExitKind.normal
    ∧ Effect.gitCheckoutBranch (branchName w) ∈ (mainRun a w).1
    ∧ Effect.gitPush "origin" (branchName w) ∈ (mainRun a w).1
    ∧ Effect.logError "GITHUB_TOKEN environment variable not set. Exiting."
        ∈ (mainRun a w).1
    ∧ ∀ x ∈ (mainRun a w).1, isApiEffect x = false := by
  obtain ⟨t0, k1, hmem, heq⟩ :=
    mainRun_forge a w url hrep hinit hradd hadd hcommit hmax
  rw [heq, forgePhase_no_token w k1 t0 u hco hpush hurl hname htok]
  refine ⟨rfl, ?_, ?_, ?_, ?_⟩
  · rw [List.mem_append]
    right
    simp
  · rw [List.mem_append]
    right
    simp
  · rw [List.mem_append]
    right
    simp
  · intro x hx
    rw [List.mem_append] at hx
    rcases hx with hx | hx
    · exact (hmem x hx).2
    · simp only [List.mem_cons, List.mem_singleton] at hx
      rcases hx with rfl | rfl | rfl | rfl | rfl | rfl | hx
      · rfl
      · rfl
      · rfl
      · rfl
      · rfl
      · rfl
      · exact absurd hx (List.not_mem_nil x)

theorem gitsim_C8_witness :
    (mainRun argsA worldNoToken).2 = ExitKind.normal
    ∧ Effect.logError "GITHUB_TOKEN environment variable not set. Exiting."
        ∈ (mainRun argsA worldNoToken).1 := by
  have h := gitsim_C8 argsA worldNoToken "git@github.com:u/r.git"
    "git@github.com:u/r.git" rfl rfl rfl rfl rfl (by decide) rfl rfl rfl
    (by decide) rfl
  exact ⟨h.1, h.2.2.2.1⟩

/-- C9: every review `simulate_code_review` posts has event type "COMMENT"
(never "APPROVE" or "REQUEST_CHANGES"), exactly one review call is made,
and its body is one of exactly two distinct fixed templates (minor issues
/ clean review), selected by the `random.choice([True, False])` coin
flip; a posting failure only adds a logged error — the function still
returns normally. -/
theorem gitsim_C9 (ok : Bool) (r : RandOracle) (k : Nat) :
    (∀ b ev, Effect.apiCreateReview b ev ∈ (simulate_code_review ok r k).1 →
       ev = "COMMENT" ∧ (b = reviewMessage true ∨ b = reviewMessage false))
    ∧ (simulate_code_review ok r k).1.countP isReviewEffect = 1
    ∧ reviewMessage true ≠ reviewMessage false
    ∧ (simulate_code_review ok r k).1 =
        [Effect.apiCreateReview (reviewMessage (pyChoiceBool r k).1) "COMMENT"]
        ++ (if ok then [Effect.logInfo "Simulated code review: posted comment."]
            else [Effect.logError "Error simulating code review"])
    ∧ (ok = false → Effect.logError "Error simulating code review"
        ∈ (simulate_code_review ok r k).1) := by
  have htr : (simulate_code_review ok r k).1 =
      [Effect.apiCreateReview (reviewMessage (pyChoiceBool r k).1) "COMMENT"]
      ++ (if ok then [Effect.logInfo "Simulated code review: posted comment."]
          else [Effect.logError "Error simulating code review"]) := by
    rcases ok with _ | _ <;> rfl
  refine ⟨?_, ?_, by decide, htr, ?_⟩
  · intro b ev hmem
    rw [htr] at hmem
    rcases ok with _ | _ <;>
      simp only [if_true, Bool.false_eq_true, if_false, List.cons_append,
        List.nil_append, List.mem_cons, List.mem_singleton] at hmem <;>
      rcases hmem with h | h | h
    · injection h with h1 h2
      subst h1; subst h2
      rcases hc : (pyChoiceBool r k).1 with _ | _
      · exact ⟨rfl, Or.inr rfl⟩
      · exact ⟨rfl, Or.inl rfl⟩
    · exact absurd h (by simp)
    · exact absurd h (List.not_mem_nil _)
    · injection h with h1 h2
      subst h1; subst h2
      rcases hc : (pyChoiceBool r k).1 with _ | _
      · exact ⟨rfl, Or.inr rfl⟩
      · exact ⟨rfl, Or.inl rfl⟩
    · exact absurd h (by simp)
    · exact absurd h (List.not_mem_nil _)
  · rw [htr]
    rcases ok with _ | _ <;> rfl
  · intro h
    subst h
    rw [htr]
    simp

theorem gitsim_C9_witness :
    Effect.logError "Error simulating code review"
      ∈ (simulate_code_review false rOracle0 0).1 :=
  (gitsim_C9 false rOracle0 0).2.2.2.2 rfl

/-- C4 counterexample: the configured origin URL
`"ssh://gitlab.com/a/b.git"` starts with neither the recognized SSH
prefix nor the recognized HTTPS prefix, yet
`get_github_repo_name_from_remote` returns the string
`"ssh://gitlab.com/a/b"` (the URL with only `".git"` stripped), not
nothing — refuting "for every URL that starts with neither recognized
prefix, the result is nothing rather than a string". -/
theorem gitsim_C4_counterexample :
    pyStartsWith "ssh://gitlab.com/a/b.git" "git@github.com:" = false
    ∧ pyStartsWith "ssh://gitlab.com/a/b.git" "https://github.com/" = false
    ∧ (get_github_repo_name_from_remote (some "ssh://gitlab.com/a/b.git")).2
        = some "ssh://gitlab.com/a/b" := by
  refine ⟨?_, ?_, ?_⟩ <;> decide

/-- C4 amended: `get_github_repo_name_from_remote` returns nothing exactly
when reading the configured origin URL fails (the wrapped command raises);
every successfully read URL yields a string: the recognized SSH or HTTPS
prefix is stripped when present, a trailing `".git"` is stripped, and a
URL of unrecognized shape is returned as-is (minus a trailing `".git"`)
rather than rejected. -/
theorem gitsim_C4_amended :
    (∀ o : Option String,
       ((get_github_repo_name_from_remote o).2 = none ↔ o = none))
    ∧ (∀ u : String,
       (get_github_repo_name_from_remote (some u)).2 = some (stripRemoteUrl u))
    ∧ stripRemoteUrl "git@github.com:owner/name.git" = "owner/name"
    ∧ stripRemoteUrl "https://github.com/owner/name.git" = "owner/name"
    ∧ stripRemoteUrl "https://github.com/owner/name" = "owner/name" := by
  refine ⟨?_, ?_, by decide, by decide, by decide⟩
  · intro o
    rcases o with _ | u <;> simp [get_github_repo_name_from_remote]
  · intro u
    rfl

def repoMyOrigin : RepoState := ⟨true, ["myorigin"]⟩

def repoEmpty : RepoState := ⟨false, []⟩

/-- C7 counterexample: a repository whose only remote is `myorigin` has no
remote named `origin`, yet `set_remote` adds nothing and logs "Remote
origin already set.", because the code tests `"origin" in stdout`
(substring containment on the output of `git remote`) and `"origin"` is a
substring of `"myorigin"` — refuting "for every starting remote
configuration without an origin remote, a single call adds it". -/
theorem gitsim_C7_counterexample :
    (["myorigin"].contains "origin") = false
    ∧ (set_remote true "git@github.com:u/r.git" repoMyOrigin).2.1 = repoMyOrigin
    ∧ (set_remote true "git@github.com:u/r.git" repoMyOrigin).1
        = [Effect.logInfo "Remote origin already set."] := by
  refine ⟨?_, ?_, ?_⟩ <;> decide

/-- C7 amended: repository initialization and remote configuration are
idempotent — a second call leaves the state exactly as after the first —
and `set_remote` never adds a duplicate `origin` (a configured `origin`
is always detected and left alone).  However, the add is guarded by the
substring test `"origin" in stdout` on the remote listing, not by the
existence of a remote named `origin`: `origin` is added exactly when no
listed remote name contains `"origin"` as a substring, so a remote such
as `myorigin` suppresses the add even though no `origin` exists. -/
theorem gitsim_C7_amended (s : RepoState) (url : String) (iOk rOk : Bool)
    (hi : iOk = true) (hr : rOk = true) :
    (init_repo iOk (init_repo iOk s).2.1).2.1 = (init_repo iOk s).2.1
    ∧ (set_remote rOk url (set_remote rOk url s).2.1).2.1
        = (set_remote rOk url s).2.1
    ∧ (pyInStr "origin" (remoteStdout s.remotes) = false →
        (set_remote rOk url s).2.1.remotes = s.remotes ++ ["origin"])
    ∧ ("origin" ∈ s.remotes → (set_remote rOk url s).2.1 = s) := by
  subst hi
  subst hr
  refine ⟨?_, ?_, ?_, ?_⟩
  · by_cases h : s.gitDir <;> simp [init_repo, h]
  · by_cases h : pyInStr "origin" (remoteStdout s.remotes) = true
    · simp [set_remote, h]
    · have h2 := pyInStr_origin_of_mem
        (l := s.remotes ++ ["origin"]) (by simp)
      simp [set_remote, h, h2]
  · intro h
    simp [set_remote, h]
  · intro h
    have h2 := pyInStr_origin_of_mem h
    simp [set_remote, h2]

theorem gitsim_C7_amended_witness :
    (init_repo true (init_repo true repoEmpty).2.1).2.1
        = (init_repo true repoEmpty).2.1
    ∧ (set_remote true "u" repoEmpty).2.1.remotes
        = repoEmpty.remotes ++ ["origin"] :=
  ⟨(gitsim_C7_amended repoEmpty "u" true true rfl rfl).1,
   (gitsim_C7_amended repoEmpty "u" true true rfl rfl).2.2.1 (by decide)⟩
